import Mathlib

/-!
Shallow embedding of the CHIP-8 emulator core (`src/chip8.rs`, `src/opcode.rs`).

Modelling conventions:
* Machine integers (`u8`, `u16`, `usize`) are `Nat`; wrapping arithmetic is
  written with explicit `% 256` (mirroring `overflowing_add`/`overflowing_sub`
  on `u8` values, which are `< 256` by their Rust type).
* Fixed arrays (`[u8; 4096]`, `[u8; 16]`, `[bool; 2048]`, ...) are total
  functions `Nat → _` together with explicit bounds checks exactly where the
  Rust indexing would panic; a Rust panic (index out of bounds, integer
  underflow of `usize`, an unimplemented `todo` arm, or the unknown-opcode
  `panic` arm of `emulate_cycle`) is `none` in an `Option` result.
* `rand::random::<u8>()` is modelled by an explicit oracle argument `rnd`
  (taken mod 256); file input in `load_game` is modelled by the list of
  bytes the file yields.
-/

/-- Pointwise update of a function-modelled array: `f[i] = v`. -/
def upd {α : Type} (f : Nat → α) (i : Nat) (v : α) : Nat → α :=
  fun k => if k = i then v else f k

/-- Machine state of `Chip8Emulator` (`src/chip8.rs`, lines 19-50). -/
structure Chip8 where
  memory : Nat → Nat
  V : Nat → Nat
  I : Nat
  pc : Nat
  screen : Nat → Bool
  delay_timer : Nat
  sound_timer : Nat
  stack : Nat → Nat
  sp : Nat
  keys : Nat → Bool

instance : Inhabited Chip8 :=
  ⟨⟨fun _ => 0, fun _ => 0, 0, 0, fun _ => false, 0, 0, fun _ => 0, 0, fun _ => false⟩⟩

/-- The decoded instruction (tag + operands), named after `enum Opcode` in
`src/opcode.rs`; one constructor per arm of the dispatch `match` in
`emulate_cycle` (`src/chip8.rs`, lines 132-169). -/
inductive Op where
  | ClearScreen : Op
  | ReturnFromSub : Op
  | MachineCode : Nat → Op
  | Goto : Nat → Op
  | CallSub : Nat → Op
  | SkipEQ : Nat → Nat → Op
  | SkipNEQ : Nat → Nat → Op
  | SkipRegEQ : Nat → Nat → Op
  | SetConst : Nat → Nat → Op
  | AddConst : Nat → Nat → Op
  | SetReg : Nat → Nat → Op
  | OrReg : Nat → Nat → Op
  | AndReg : Nat → Nat → Op
  | XorReg : Nat → Nat → Op
  | AddReg : Nat → Nat → Op
  | SubReg : Nat → Nat → Op
  | Div2 : Nat → Nat → Op
  | DiffReg : Nat → Nat → Op
  | Mul2 : Nat → Nat → Op
  | SkipRegNEQ : Nat → Nat → Op
  | SetAR : Nat → Op
  | JumpOffset : Nat → Op
  | Rand : Nat → Nat → Op
  | Draw : Nat → Nat → Nat → Op
  | KeyEQ : Nat → Op
  | KeyNEQ : Nat → Op
  | GetDelayTimer : Nat → Op
  | GetKey : Nat → Op
  | SetDelayTimer : Nat → Op
  | SetSoundTimer : Nat → Op
  | AddToI : Nat → Op
  | SetISprite : Nat → Op
  | BCD : Nat → Op
  | RegDump : Nat → Op
  | RegLoad : Nat → Op
deriving DecidableEq

namespace Chip8

/-- `split_opcode` (`src/chip8.rs`, lines 116-123): the four 4-bit nibbles of a
16-bit word, most significant first. -/
def split_opcode (value : Nat) : Nat × Nat × Nat × Nat :=
  ((value >>> 12) &&& 0xF, (value >>> 8) &&& 0xF, (value >>> 4) &&& 0xF,
    (value >>> 0) &&& 0xF)

/-- `join_nibbles!` for two nibbles (`src/chip8.rs`, lines 8-10): an 8-bit
constant. -/
def join2 (r0 r1 : Nat) : Nat := (r0 <<< 4) ||| r1

/-- `join_nibbles!` for three nibbles (`src/chip8.rs`, lines 11-13): a 12-bit
address. -/
def join3 (r0 r1 r2 : Nat) : Nat := (r0 <<< 8) ||| (r1 <<< 4) ||| r2

/-- The arm selection of the dispatch `match` of `emulate_cycle`
(`src/chip8.rs`, lines 132-169), split out as a pure decoder: `none` is the
final `_ => panic` arm.  Arms are listed in source order; the handler bodies
themselves are in `execInstr` below. -/
def decodeOp (w : Nat) : Option Op :=
  match split_opcode w with
  | (0x0, 0x0, 0xE, 0x0) => some .ClearScreen
  | (0x0, 0x0, 0xE, 0xE) => some .ReturnFromSub
  | (0x0, r2, r1, r0) => some (.MachineCode (join3 r2 r1 r0))
  | (0x1, r2, r1, r0) => some (.Goto (join3 r2 r1 r0))
  | (0x2, r2, r1, r0) => some (.CallSub (join3 r2 r1 r0))
  | (0x3, x, c1, c0) => some (.SkipEQ x (join2 c1 c0))
  | (0x4, x, c1, c0) => some (.SkipNEQ x (join2 c1 c0))
  | (0x5, x, y, 0x0) => some (.SkipRegEQ x y)
  | (0x6, x, c1, c0) => some (.SetConst x (join2 c1 c0))
  | (0x7, x, c1, c0) => some (.AddConst x (join2 c1 c0))
  | (0x8, x, y, 0x0) => some (.SetReg x y)
  | (0x8, x, y, 0x1) => some (.OrReg x y)
  | (0x8, x, y, 0x2) => some (.AndReg x y)
  | (0x8, x, y, 0x3) => some (.XorReg x y)
  | (0x8, x, y, 0x4) => some (.AddReg x y)
  | (0x8, x, y, 0x5) => some (.SubReg x y)
  | (0x8, x, y, 0x6) => some (.Div2 x y)
  | (0x8, x, y, 0x7) => some (.DiffReg x y)
  | (0x8, x, y, 0xE) => some (.Mul2 x y)
  | (0x9, x, y, 0x0) => some (.SkipRegNEQ x y)
  | (0xA, r2, r1, r0) => some (.SetAR (join3 r2 r1 r0))
  | (0xB, r2, r1, r0) => some (.JumpOffset (join3 r2 r1 r0))
  | (0xC, x, c1, c0) => some (.Rand x (join2 c1 c0))
  | (0xD, x, y, c) => some (.Draw x y c)
  | (0xE, x, 0x9, 0xE) => some (.KeyEQ x)
  | (0xE, x, 0xA, 0x1) => some (.KeyNEQ x)
  | (0xF, x, 0x0, 0x7) => some (.GetDelayTimer x)
  | (0xF, x, 0x0, 0xA) => some (.GetKey x)
  | (0xF, x, 0x1, 0x5) => some (.SetDelayTimer x)
  | (0xF, x, 0x1, 0x8) => some (.SetSoundTimer x)
  | (0xF, x, 0x1, 0xE) => some (.AddToI x)
  | (0xF, x, 0x2, 0x9) => some (.SetISprite x)
  | (0xF, x, 0x3, 0x3) => some (.BCD x)
  | (0xF, x, 0x5, 0x5) => some (.RegDump x)
  | (0xF, x, 0x6, 0x5) => some (.RegLoad x)
  | _ => none

/-- `return_subroutine` (`src/chip8.rs`, lines 189-193): `sp -= 1` panics on
`usize` underflow when `sp = 0`; then `pc = stack[sp]; pc += 2`. -/
def return_subroutine (s : Chip8) : Option Chip8 :=
  if 1 ≤ s.sp then
    if s.sp - 1 < 16 then
      some { s with sp := s.sp - 1, pc := s.stack (s.sp - 1) + 2 }
    else none
  else none

/-- `goto` (`src/chip8.rs`, lines 199-201). -/
def goto (s : Chip8) (address : Nat) : Chip8 :=
  { s with pc := address }

/-- `call_subroutine` (`src/chip8.rs`, lines 203-207): `stack[sp] = pc`
(panics when `sp ≥ 16`, and `pc.try_into::<u16>()` panics when `pc ≥ 2^16`);
`sp += 1; pc = address`. -/
def call_subroutine (s : Chip8) (address : Nat) : Option Chip8 :=
  if s.sp < 16 then
    if s.pc < 65536 then
      some { s with stack := upd s.stack s.sp s.pc, sp := s.sp + 1, pc := address }
    else none
  else none

/-- `skip_const_eq` (`src/chip8.rs`, lines 209-215). -/
def skip_const_eq (s : Chip8) (reg c : Nat) : Chip8 :=
  if s.V reg = c then { s with pc := s.pc + 4 } else { s with pc := s.pc + 2 }

/-- `skip_const_neq` (`src/chip8.rs`, lines 217-223). -/
def skip_const_neq (s : Chip8) (reg c : Nat) : Chip8 :=
  if s.V reg ≠ c then { s with pc := s.pc + 4 } else { s with pc := s.pc + 2 }

/-- `set_const` (`src/chip8.rs`, lines 229-232). -/
def set_const (s : Chip8) (reg c : Nat) : Chip8 :=
  { s with V := upd s.V reg c, pc := s.pc + 2 }

/-- `add_const` (`src/chip8.rs`, lines 234-238): `V[reg] =
V[reg].overflowing_add(c).0` (wrapping mod 256); no flag write. -/
def add_const (s : Chip8) (reg c : Nat) : Chip8 :=
  { s with V := upd s.V reg ((s.V reg + c) % 256), pc := s.pc + 2 }

/-- `set` (`src/chip8.rs`, lines 240-245); named `set_reg` here. -/
def set_reg (s : Chip8) (reg reg2 : Nat) : Chip8 :=
  { s with V := upd s.V reg (s.V reg2), pc := s.pc + 2 }

/-- `or` (`src/chip8.rs`, lines 247-252); named `or_reg` here. -/
def or_reg (s : Chip8) (reg reg2 : Nat) : Chip8 :=
  { s with V := upd s.V reg (s.V reg ||| s.V reg2), pc := s.pc + 2 }

/-- `and` (`src/chip8.rs`, lines 254-259); named `and_reg` here. -/
def and_reg (s : Chip8) (reg reg2 : Nat) : Chip8 :=
  { s with V := upd s.V reg (s.V reg &&& s.V reg2), pc := s.pc + 2 }

/-- `add` (`src/chip8.rs`, lines 265-279): `V[reg].overflowing_add(V[reg2])`;
in both match arms `V[reg]` receives the wrapped sum first and `V[0xF]` is
written afterwards (`0` without carry, `1` with carry). -/
def add (s : Chip8) (reg reg2 : Nat) : Chip8 :=
  { s with
    V := upd (upd s.V reg ((s.V reg + s.V reg2) % 256)) 0xF
      (if 256 ≤ s.V reg + s.V reg2 then 1 else 0),
    pc := s.pc + 2 }

/-- `sub` (`src/chip8.rs`, lines 281-295): `V[reg].overflowing_sub(V[reg2])`;
`V[reg]` receives the wrapped difference first and `V[0xF]` is written
afterwards — `0` when the subtraction did NOT underflow (`V[reg2] ≤ V[reg]`),
`1` when it did underflow (borrow). -/
def sub (s : Chip8) (reg reg2 : Nat) : Chip8 :=
  { s with
    V := upd (upd s.V reg
        (if s.V reg2 ≤ s.V reg then s.V reg - s.V reg2
         else s.V reg + 256 - s.V reg2)) 0xF
      (if s.V reg2 ≤ s.V reg then 0 else 1),
    pc := s.pc + 2 }

/-- `skip_reg_neq` (`src/chip8.rs`, lines 309-317). -/
def skip_reg_neq (s : Chip8) (reg reg2 : Nat) : Chip8 :=
  if s.V reg ≠ s.V reg2 then { s with pc := s.pc + 4 }
  else { s with pc := s.pc + 2 }

/-- `set_i` (`src/chip8.rs`, lines 319-322). -/
def set_i (s : Chip8) (address : Nat) : Chip8 :=
  { s with I := address, pc := s.pc + 2 }

/-- `rand` (`src/chip8.rs`, lines 328-331), with the random byte supplied by
the oracle `rnd`. -/
def rand (s : Chip8) (rnd reg c : Nat) : Chip8 :=
  { s with V := upd s.V reg ((rnd % 256) &&& c), pc := s.pc + 2 }

/-- `skip_if_nkey` (`src/chip8.rs`, lines 359-365): `keys[V[reg]]` panics
when `V[reg] ≥ 16`. -/
def skip_if_nkey (s : Chip8) (reg : Nat) : Option Chip8 :=
  if s.V reg < 16 then
    if s.keys (s.V reg) = false then some { s with pc := s.pc + 4 }
    else some { s with pc := s.pc + 2 }
  else none

/-- `get_delay` (`src/chip8.rs`, lines 367-370). -/
def get_delay (s : Chip8) (reg : Nat) : Chip8 :=
  { s with V := upd s.V reg s.delay_timer, pc := s.pc + 2 }

/-- `set_delay` (`src/chip8.rs`, lines 376-380). -/
def set_delay (s : Chip8) (reg : Nat) : Chip8 :=
  { s with delay_timer := s.V reg, pc := s.pc + 2 }

/-- `set_sound` (`src/chip8.rs`, lines 382-386). -/
def set_sound (s : Chip8) (reg : Nat) : Chip8 :=
  { s with sound_timer := s.V reg, pc := s.pc + 2 }

/-- `set_i_sprite` (`src/chip8.rs`, lines 392-395): `I = (reg * 5).into()` —
the operand register ID itself is multiplied by 5, the register is not read. -/
def set_i_sprite (s : Chip8) (reg : Nat) : Chip8 :=
  { s with I := reg * 5, pc := s.pc + 2 }

/-- `bcd` (`src/chip8.rs`, lines 397-403): writes the three decimal digits of
`V[reg]` at `I`, `I+1`, `I+2` (panics when `I + 2 ≥ 4096`). -/
def bcd (s : Chip8) (reg : Nat) : Option Chip8 :=
  if s.I + 2 < 4096 then
    some { s with
      memory := upd (upd (upd s.memory s.I (s.V reg / 100))
        (s.I + 1) (s.V reg / 10 % 10)) (s.I + 2) (s.V reg % 100 % 10),
      pc := s.pc + 2 }
  else none

/-- The loop of `reg_load` (`src/chip8.rs`, lines 411-413): `V[i] =
memory[I + i]` for each `i` in the list. -/
def reg_load_go (memory : Nat → Nat) (V : Nat → Nat) (I : Nat) :
    List Nat → (Nat → Nat)
  | [] => V
  | i :: rest => reg_load_go memory (upd V i (memory (I + i))) I rest

/-- `reg_load` (`src/chip8.rs`, lines 409-415): `for i in 0..=reg` (panics when
`I + reg ≥ 4096` at the last iteration). -/
def reg_load (s : Chip8) (reg : Nat) : Option Chip8 :=
  if s.I + reg < 4096 then
    some { s with
      V := reg_load_go s.memory s.V s.I (List.range (reg + 1)),
      pc := s.pc + 2 }
  else none

/-- Inner loop of `draw` (`src/chip8.rs`, lines 341-349), for one sprite row:
`base` is `x + (y + yline) * 64` so that `base + xline` is the source's index
`x + xline + ((y + yline) * 64)`; the list holds the remaining `xline` values.
For a set sprite bit the source first tests `screen[idx]` (setting `V[0xF]` to
1 on a lit pixel) and then XORs the pixel; both array accesses panic (`none`)
when `idx ≥ 2048`. -/
def drawBits (screen : Nat → Bool) (vf base pixel : Nat) :
    List Nat → Option ((Nat → Bool) × Nat)
  | [] => some (screen, vf)
  | xline :: rest =>
    if pixel &&& (0x80 >>> xline) ≠ 0 then
      if base + xline < 2048 then
        drawBits (upd screen (base + xline) (Bool.xor (screen (base + xline)) true))
          (if screen (base + xline) = true then 1 else vf) base pixel rest
      else none
    else drawBits screen vf base pixel rest

/-- Outer loop of `draw` (`src/chip8.rs`, lines 339-350): one step per sprite
row; `memory[I + yline]` panics (`none`) when `I + yline ≥ 4096`. -/
def drawRows (memory : Nat → Nat) (screen : Nat → Bool) (vf x y I : Nat) :
    List Nat → Option ((Nat → Bool) × Nat)
  | [] => some (screen, vf)
  | yline :: rest =>
    if I + yline < 4096 then
      match drawBits screen vf (x + (y + yline) * 64) (memory (I + yline))
          (List.range 8) with
      | some (scr, vf2) => drawRows memory scr vf2 x y I rest
      | none => none
    else none

/-- `draw` (`src/chip8.rs`, lines 333-353): reads the coordinates from
`V[rx]`, `V[ry]` first, resets the collision flag to 0, runs the row loop, and
advances `pc` by 2.  The flag updates of the loop touch only `V[0xF]`, so
writing the final flag value once at the end is the same function. -/
def draw (s : Chip8) (rx ry height : Nat) : Option Chip8 :=
  match drawRows s.memory s.screen 0 (s.V rx) (s.V ry) s.I (List.range height) with
  | some (scr, vf) =>
    some { s with screen := scr, V := upd s.V 0xF vf, pc := s.pc + 2 }
  | none => none

/-- The loop of `load_game` (`src/chip8.rs`, lines 110-112): writes byte `b`
to `memory[i + 0x200]`; the Boolean records whether the out-of-bounds panic at
`i + 0x200 ≥ 4096` was reached (the bytes before it are already written). -/
def load_game_go (memory : Nat → Nat) : Nat → List Nat → ((Nat → Nat) × Bool)
  | _, [] => (memory, false)
  | i, b :: rest =>
    if i + 0x200 < 4096 then load_game_go (upd memory (i + 0x200) b) (i + 1) rest
    else (memory, true)

/-- `load_game` (`src/chip8.rs`, lines 108-114), with the opened file modelled
by the list of bytes it yields.  There is no length check: every byte is
written at `0x200 + index` until the array indexing panics (flag `true`). -/
def load_game (s : Chip8) (bytes : List Nat) : Chip8 × Bool :=
  ({ s with memory := (load_game_go s.memory 0 bytes).1 },
    (load_game_go s.memory 0 bytes).2)

/-- Dispatch of one decoded instruction to its handler: the arm bodies of the
`match` in `emulate_cycle` (`src/chip8.rs`, lines 132-169).  Handlers whose
body is `todo` in the source panic (`none`) when reached. -/
def execInstr (s : Chip8) (rnd : Nat) : Op → Option Chip8
  | .ClearScreen => none
  | .ReturnFromSub => return_subroutine s
  | .MachineCode _ => none
  | .Goto a => some (goto s a)
  | .CallSub a => call_subroutine s a
  | .SkipEQ x c => some (skip_const_eq s x c)
  | .SkipNEQ x c => some (skip_const_neq s x c)
  | .SkipRegEQ _ _ => none
  | .SetConst x c => some (set_const s x c)
  | .AddConst x c => some (add_const s x c)
  | .SetReg x y => some (set_reg s x y)
  | .OrReg x y => some (or_reg s x y)
  | .AndReg x y => some (and_reg s x y)
  | .XorReg _ _ => none
  | .AddReg x y => some (add s x y)
  | .SubReg x y => some (sub s x y)
  | .Div2 _ _ => none
  | .DiffReg _ _ => none
  | .Mul2 _ _ => none
  | .SkipRegNEQ x y => some (skip_reg_neq s x y)
  | .SetAR a => some (set_i s a)
  | .JumpOffset _ => none
  | .Rand x c => some (rand s rnd x c)
  | .Draw x y c => draw s x y c
  | .KeyEQ _ => none
  | .KeyNEQ x => skip_if_nkey s x
  | .GetDelayTimer x => some (get_delay s x)
  | .GetKey _ => none
  | .SetDelayTimer x => some (set_delay s x)
  | .SetSoundTimer x => some (set_sound s x)
  | .AddToI _ => none
  | .SetISprite x => some (set_i_sprite s x)
  | .BCD x => bcd s x
  | .RegDump _ => none
  | .RegLoad x => reg_load s x

/-- The fetched 16-bit word of `emulate_cycle` (`src/chip8.rs`, lines
127-128): `memory[pc] << 8 | memory[pc + 1]`. -/
def fetch_word (s : Chip8) : Nat :=
  (s.memory s.pc <<< 8) ||| s.memory (s.pc + 1)

/-- Timer block at the end of `emulate_cycle` (`src/chip8.rs`, lines
171-180): each timer, when above 0, is decremented by 1; the `BEEP` print (the
beep signal, returned here as the Boolean) fires exactly when the sound timer
reaches 0 by this decrement. -/
def update_timers (s : Chip8) : Chip8 × Bool :=
  let s1 :=
    if 0 < s.delay_timer then { s with delay_timer := s.delay_timer - 1 } else s
  if 0 < s1.sound_timer then
    ({ s1 with sound_timer := s1.sound_timer - 1 }, s1.sound_timer - 1 == 0)
  else (s1, false)

/-- `emulate_cycle` (`src/chip8.rs`, lines 125-181): fetch (panicking when
`pc + 1 ≥ 4096`), decode (the `_` arm panics on an unrecognized word), run the
handler, then update the timers.  The Boolean of the result is the beep
signal; `none` is a panic of the cycle. -/
def emulate_cycle (s : Chip8) (rnd : Nat) : Option (Chip8 × Bool) :=
  if s.pc + 1 < 4096 then
    match decodeOp (fetch_word s) with
    | some op => (execInstr s rnd op).map update_timers
    | none => none
  else none

end Chip8

/-! ### Concrete machine states and spec-side predicates used by the claims -/

/-- The all-zero machine state (used as the base for concrete test states). -/
def zeroState : Chip8 :=
  ⟨fun _ => 0, fun _ => 0, 0, 0, fun _ => false, 0, 0, fun _ => 0, 0, fun _ => false⟩

/-- Concrete state for C1: `V[0] = 5`, `V[1] = 3`. -/
def sC1 : Chip8 := { zeroState with V := upd (upd (fun _ => 0) 0 5) 1 3 }

/-- Concrete state for C3: `pc = 0x300`, everything else zero. -/
def sC3 : Chip8 := { zeroState with pc := 0x300 }

/-- Concrete state for C4: `V[0] = 1`. -/
def sC4 : Chip8 := { zeroState with V := upd (fun _ => 0) 0 1 }

/-- Concrete state for C6 counterexample: `V[0xF] = 0x80`. -/
def sC6 : Chip8 := { zeroState with V := upd (fun _ => 0) 0xF 0x80 }

/-- Concrete state for C6 witness: `V[0] = 0xFF`, `V[1] = 2` (the spec's own
example: sum 0x101 wraps to 0x01 with carry 1). -/
def sC6w : Chip8 := { zeroState with V := upd (upd (fun _ => 0) 0 0xFF) 1 2 }

/-- Concrete state for C10: `V[0] = 0xFF`, `V[0xF] = 7`. -/
def sC10 : Chip8 :=
  { zeroState with V := upd (upd (fun _ => 0) 0 0xFF) 0xF 7 }

/-- The too-long input of the C5 counterexample: `4096 - 0x200 + 1` copies of
the byte `1`. -/
def bytesC5 : List Nat := List.replicate 3585 1

/-- Collision predicate for a draw: some set sprite bit of the `height`-row
sprite at `memory[I..]` lands on an already-lit pixel of `screen` at position
`(x, y)` (row-major index `x + (y + row) * 64 + col`). -/
def drawCollision (memory : Nat → Nat) (screen : Nat → Bool)
    (x y I height : Nat) : Bool :=
  (List.range height).any fun yline =>
    (List.range 8).any fun xline =>
      (memory (I + yline) &&& (0x80 >>> xline) != 0) &&
        screen (x + (y + yline) * 64 + xline)

/-- Concrete state for the C7 witness: one-byte sprite `0x80` at `I = 0`, and
a screen whose only lit pixel is cell 0 — drawing at `(0, 0)` collides. -/
def sC7 : Chip8 :=
  { zeroState with
    memory := upd (fun _ => 0) 0 0x80
    screen := fun k => k == 0 }

/-- The state produced by the C7 witness draw. -/
def sC7r : Chip8 := (Chip8.draw sC7 0 0 1).getD default

/-- Concrete state for the C8 counterexample: sprite byte `0x80` at `I = 0`
and `V[1] = 32`, so the draw at `(V[0], V[1]) = (0, 32)` targets framebuffer
index `32 * 64 = 2048`, one past the last cell. -/
def sC8 : Chip8 :=
  { zeroState with
    memory := upd (fun _ => 0) 0 0x80
    V := upd (fun _ => 0) 1 32 }

/-- Concrete state for the C8 witness: the same sprite drawn at `(0, 1)`,
fully inside the framebuffer. -/
def sC8w : Chip8 :=
  { zeroState with
    memory := upd (fun _ => 0) 0 0x80
    V := upd (fun _ => 0) 1 1 }

/-- Concrete state for the C2 counterexample: the fetched word is `0x8008`
(group `0x8` with low nibble `0x8`), which matches no dispatch arm. -/
def sC2 : Chip8 :=
  { zeroState with
    pc := 0x200
    memory := upd (upd (fun _ => 0) 0x200 0x80) 0x201 0x08 }

/-- Concrete state for the C2 witness: fetched word `0xE000`, which also
matches no arm (group `0xE` requires low byte `0x9E` or `0xA1`). -/
def sC2w : Chip8 :=
  { zeroState with
    pc := 0x200
    memory := upd (upd (fun _ => 0) 0x200 0xE0) 0x201 0x00 }

/-- Concrete state for the C9 counterexample: sound timer 0, and the
instruction at `pc` is `0xF018` (`set_sound`) with `V[0] = 1`. -/
def sC9 : Chip8 :=
  { zeroState with
    pc := 0x200
    memory := upd (upd (fun _ => 0) 0x200 0xF0) 0x201 0x18
    V := upd (fun _ => 0) 0 1 }

/-- Concrete state for the C9 witness: delay 3, sound 1, and the neutral
instruction `0x6005` (`set_const V[0] = 5`) at `pc`. -/
def sC9w : Chip8 :=
  { zeroState with
    pc := 0x200
    memory := upd (upd (fun _ => 0) 0x200 0x60) 0x201 0x05
    delay_timer := 3
    sound_timer := 1 }

/-- The cycle outcome of the C9 witness. -/
def sC9r : Chip8 × Bool := (Chip8.emulate_cycle sC9w 0).getD (default, false)

theorem upd_same {α : Type} (f : Nat → α) (i : Nat) (v : α) : upd f i v i = v := by
  simp [upd]

theorem upd_other {α : Type} (f : Nat → α) (i k : Nat) (v : α) (h : k ≠ i) :
    upd f i v k = f k := by
  simp [upd, h]

/-! ### C1: SubWithBorrow (opcode 8XY5, `sub`) -/

/-- C1, counterexample: with `V[0] = 5 ≥ V[1] = 3` (no borrow) the claim
demands `V[F] = 1`, but `sub` writes `V[F] = 0` on the no-borrow branch — the
code implements the opposite flag convention. -/
theorem C1_sub_flag_cex :
    sC1.V 1 ≤ sC1.V 0 ∧ (Chip8.sub sC1 0 1).V 0 = 2 ∧
      (Chip8.sub sC1 0 1).V 0xF ≠ 1 := by decide

/-- C1, amended: `sub` (8XY5) sets `V[X]` (when `X ≠ 0xF`) to
`V[X] − V[Y]` wrapping modulo 256, and sets `V[F]` to `0` when the
pre-subtraction `V[X] ≥ V[Y]` (no borrow) and to `1` when a borrow occurred —
the inverse of the claimed convention; the flag write comes after the
difference write, so for `X = 0xF` the flag value is what remains. -/
theorem C1_sub_borrow_amended (s : Chip8) (x y : Nat) (hx : x ≠ 0xF)
    (hvx : s.V x < 256) (hvy : s.V y < 256) :
    (Chip8.sub s x y).V 0xF = (if s.V y ≤ s.V x then 0 else 1) ∧
      ((Chip8.sub s x y).V x : Int) = ((s.V x : Int) - (s.V y : Int)) % 256 := by
  refine ⟨by simp [Chip8.sub, upd], ?_⟩
  simp [Chip8.sub, upd, hx]
  split_ifs with h <;> omega

/-- C1, witness: the amended theorem applied to `sC1` (`V[0]=5, V[1]=3`,
registers `X=0, Y=1`). -/
theorem C1_sub_borrow_amended_witness :
    (Chip8.sub sC1 0 1).V 0xF = (if sC1.V 1 ≤ sC1.V 0 then 0 else 1) ∧
      ((Chip8.sub sC1 0 1).V 0 : Int) = ((sC1.V 0 : Int) - (sC1.V 1 : Int)) % 256 :=
  C1_sub_borrow_amended sC1 0 1 (by decide) (by decide) (by decide)

/-! ### C3: CallSub / ReturnFromSub round trip -/

/-- C3: from any state with `pc = 0x300` and `sp < 16`, `call_subroutine 0x400`
followed by `return_subroutine` yields `pc = 0x302` and the original stack
pointer. -/
theorem C3_call_return_roundtrip (s : Chip8) (h : s.pc = 0x300)
    (hsp : s.sp < 16) :
    ((Chip8.call_subroutine s 0x400).bind Chip8.return_subroutine).map
      (fun t => (t.pc, t.sp)) = some (0x302, s.sp) := by
  unfold Chip8.call_subroutine Chip8.return_subroutine
  rw [if_pos hsp, if_pos (by omega : s.pc < 65536)]
  simp [upd, h, hsp]

/-- C3, witness: the round trip run from `sC3` (`pc = 0x300`, `sp = 0`). -/
theorem C3_call_return_roundtrip_witness :
    ((Chip8.call_subroutine sC3 0x400).bind Chip8.return_subroutine).map
      (fun t => (t.pc, t.sp)) = some (0x302, sC3.sp) :=
  C3_call_return_roundtrip sC3 rfl (by decide)

/-! ### C4: SetAddressRegisterToSpriteFor (opcode FX29, `set_i_sprite`) -/

/-- C4: at register id `0` holding value `1`, `set_i_sprite` sets `I` to
`reg * 5 = 0`, not to `V[reg] * 5 = 5` as the claim (and standard CHIP-8
semantics) requires. -/
theorem C4_set_i_sprite_bug :
    (Chip8.set_i_sprite sC4 0).I = 0 ∧ sC4.V 0 * 5 = 5 := by decide

/-! ### C6: AddWithCarry (opcode 8XY4, `add`) -/

/-- C6, counterexample: for `X = Y = 0xF` with `V[0xF] = 0x80` the wrapped sum
is `0` but the subsequent flag write leaves `V[0xF] = 1`, so "sets V[X] to
V[X] + V[Y] wrapping modulo 256" fails for the register pair `(0xF, 0xF)`. -/
theorem C6_add_carry_cex :
    (sC6.V 0xF + sC6.V 0xF) % 256 = 0 ∧
      (Chip8.add sC6 0xF 0xF).V 0xF ≠ (sC6.V 0xF + sC6.V 0xF) % 256 := by decide

/-- C6, amended: `add` (8XY4) sets `V[X]` (when `X ≠ 0xF`) to
`V[X] + V[Y]` wrapping modulo 256, and sets `V[F]` to 1 exactly when the
mathematical sum is at least 256 and to 0 exactly when it is below 256; for
`X = 0xF` the flag write overwrites the wrapped sum. -/
theorem C6_add_carry_amended (s : Chip8) (x y : Nat) (hx : x ≠ 0xF) :
    ((Chip8.add s x y).V 0xF = 1 ↔ 256 ≤ s.V x + s.V y) ∧
      ((Chip8.add s x y).V 0xF = 0 ↔ s.V x + s.V y < 256) ∧
      (Chip8.add s x y).V x = (s.V x + s.V y) % 256 := by
  refine ⟨?_, ?_, ?_⟩ <;> simp [Chip8.add, upd, hx] <;> split_ifs with h <;>
    omega

/-- C6, witness: the amended theorem applied to `sC6w` with `X=0, Y=1`. -/
theorem C6_add_carry_amended_witness :
    ((Chip8.add sC6w 0 1).V 0xF = 1 ↔ 256 ≤ sC6w.V 0 + sC6w.V 1) ∧
      ((Chip8.add sC6w 0 1).V 0xF = 0 ↔ sC6w.V 0 + sC6w.V 1 < 256) ∧
      (Chip8.add sC6w 0 1).V 0 = (sC6w.V 0 + sC6w.V 1) % 256 :=
  C6_add_carry_amended sC6w 0 1 (by decide)

/-! ### C10: AddConst (opcode 7XNN, `add_const`) -/

/-- C10: `add_const` writes only `V[X]` (with the wrapped sum) and leaves every
other register — in particular `V[F]` when `X ≠ 0xF` — unchanged, whether or
not the addition overflows. -/
theorem C10_add_const_no_flag (s : Chip8) (x c : Nat) :
    (Chip8.add_const s x c).V x = (s.V x + c) % 256 ∧
      (∀ r, r ≠ x → (Chip8.add_const s x c).V r = s.V r) ∧
      (x ≠ 0xF → (Chip8.add_const s x c).V 0xF = s.V 0xF) := by
  refine ⟨by simp [Chip8.add_const, upd], fun r hr => by simp [Chip8.add_const, upd, hr],
    fun hx => by simp [Chip8.add_const, upd, Ne.symm hx]⟩

/-- C10, witness: adding the constant 2 to `V[0] = 0xFF` overflows
(`0xFF + 2 = 0x101`), wraps `V[0]` to 1, and leaves `V[0xF] = 7` and `V[1] = 0`
unchanged. -/
theorem C10_add_const_no_flag_witness :
    (Chip8.add_const sC10 0 2).V 0 = 1 ∧ (Chip8.add_const sC10 0 2).V 0xF = 7 ∧
      (Chip8.add_const sC10 0 2).V 1 = 0 :=
  ⟨(C10_add_const_no_flag sC10 0 2).1,
    (C10_add_const_no_flag sC10 0 2).2.2 (by decide),
    (C10_add_const_no_flag sC10 0 2).2.1 1 (by decide)⟩

/-! ### C5: program loading (`load_game`) -/

theorem load_game_go_preserve (bytes : List Nat) :
    ∀ (memory : Nat → Nat) (i k : Nat), k < 0x200 + i →
      (Chip8.load_game_go memory i bytes).1 k = memory k := by
  induction bytes with
  | nil => intro memory i k _; rfl
  | cons b rest ih =>
    intro memory i k hk
    rw [Chip8.load_game_go]
    split_ifs with h
    · rw [ih _ (i + 1) k (by omega), upd_other _ _ _ _ (by omega)]
    · rfl

theorem load_game_go_get (bytes : List Nat) :
    ∀ (memory : Nat → Nat) (i j : Nat), j < bytes.length → 0x200 + i + j < 4096 →
      (Chip8.load_game_go memory i bytes).1 (0x200 + i + j) = bytes.getD j 0 := by
  induction bytes with
  | nil => intro _ _ j hj _; simp at hj
  | cons b rest ih =>
    intro memory i j hj hb
    rw [Chip8.load_game_go]
    rw [if_pos (by omega)]
    match j with
    | 0 =>
      rw [show 0x200 + i + 0 = 0x200 + i by omega,
        load_game_go_preserve rest _ (i + 1) _ (by omega),
        show (0x200 : Nat) + i = i + 0x200 by omega, upd_same]
      rfl
    | j + 1 =>
      rw [show 0x200 + i + (j + 1) = 0x200 + (i + 1) + j by omega,
        ih _ (i + 1) j (by simpa using hj) (by omega)]
      rfl

theorem load_game_go_ok (bytes : List Nat) :
    ∀ (memory : Nat → Nat) (i : Nat), 0x200 + i + bytes.length ≤ 4096 →
      (Chip8.load_game_go memory i bytes).2 = false := by
  induction bytes with
  | nil => intro _ _ _; rfl
  | cons b rest ih =>
    intro memory i h
    rw [Chip8.load_game_go]
    rw [if_pos (by simp at h; omega)]
    exact ih _ (i + 1) (by simp at h ⊢; omega)

theorem load_game_go_overflow (bytes : List Nat) :
    ∀ (memory : Nat → Nat) (i : Nat), bytes ≠ [] →
      4096 < 0x200 + i + bytes.length →
      (Chip8.load_game_go memory i bytes).2 = true := by
  induction bytes with
  | nil => intro _ _ h _; exact absurd rfl h
  | cons b rest ih =>
    intro memory i _ h
    rw [Chip8.load_game_go]
    split_ifs with hlt
    · have hrest : rest ≠ [] := by
        intro he
        rw [he] at h
        simp at h
        omega
      exact ih _ (i + 1) hrest (by simp at h ⊢; omega)
    · rfl

/-- `load_game` is the loop `load_game_go` run from index 0 on the state's
memory (both components, stated once so concrete inputs can be rewritten
without unfolding). -/
theorem load_game_eq (s : Chip8) (bytes : List Nat) :
    (Chip8.load_game s bytes).2 = (Chip8.load_game_go s.memory 0 bytes).2 ∧
      (Chip8.load_game s bytes).1.memory =
        (Chip8.load_game_go s.memory 0 bytes).1 :=
  ⟨rfl, rfl⟩

/-- C5, amended: `load_game` performs no length check.  A byte sequence of
length at most `4096 - 0x200` is copied verbatim into memory starting at
`0x200` with no panic; a longer sequence makes the copy loop panic on an
out-of-bounds memory index (there is no `LoadError::TooLarge` value), and the
panic happens only after the in-range prefix has been written — in particular
memory at `0x200` already holds the first byte, so the load is partial, not
absent. -/
theorem C5_load_game_amended (s : Chip8) (bytes : List Nat) :
    (bytes.length ≤ 4096 - 0x200 →
      (Chip8.load_game s bytes).2 = false ∧
        ∀ j, j < bytes.length →
          (Chip8.load_game s bytes).1.memory (0x200 + j) = bytes.getD j 0) ∧
    (4096 - 0x200 < bytes.length →
      (Chip8.load_game s bytes).2 = true ∧
        (Chip8.load_game s bytes).1.memory 0x200 = bytes.getD 0 0) := by
  constructor
  · intro hlen
    refine ⟨load_game_go_ok bytes s.memory 0 (by omega), fun j hj => ?_⟩
    have := load_game_go_get bytes s.memory 0 j hj (by omega)
    simpa using this
  · intro hlen
    have hne : bytes ≠ [] := by
      intro he; rw [he] at hlen; simp at hlen
    refine ⟨load_game_go_overflow bytes s.memory 0 hne (by omega), ?_⟩
    have := load_game_go_get bytes s.memory 0 0 (by omega) (by omega)
    simpa using this

/-- C5, witness: loading the single byte `7` into the zero state succeeds and
writes `memory[0x200] = 7`. -/
theorem C5_load_game_amended_witness :
    (Chip8.load_game zeroState [7]).2 = false ∧
      (Chip8.load_game zeroState [7]).1.memory 0x200 = 7 := by
  have h := (C5_load_game_amended zeroState [7]).1 (by decide)
  exact ⟨h.1, h.2 0 (by decide)⟩

/-- C5, counterexample: loading a sequence of length `4096 - 0x200 + 1` from
the zero state does not return a `TooLarge` error — the copy loop panics — and
memory is not left untouched: `memory[0x200]` has already been overwritten
from `0` to `1` when the panic is reached. -/
theorem C5_load_game_cex :
    (Chip8.load_game zeroState bytesC5).2 = true ∧
      (Chip8.load_game zeroState bytesC5).1.memory 0x200 = 1 ∧
      zeroState.memory 0x200 = 0 := by
  have hlen : bytesC5.length = 3585 := by
    show (List.replicate 3585 1).length = 3585
    exact List.length_replicate 3585 1
  have hne : bytesC5 ≠ [] := by
    intro he
    rw [he] at hlen
    simp at hlen
  refine ⟨?_, ?_, rfl⟩
  · rw [(load_game_eq zeroState bytesC5).1]
    exact load_game_go_overflow bytesC5 zeroState.memory 0 hne (by omega)
  · rw [(load_game_eq zeroState bytesC5).2]
    have h := load_game_go_get bytesC5 zeroState.memory 0 0 (by omega) (by omega)
    rw [show (0x200 : Nat) + 0 + 0 = 0x200 from rfl] at h
    rw [h]
    rfl

/-! ### C7 / C8: Draw (opcode DXYN, `draw`) -/

theorem drawBits_frame (xs : List Nat) :
    ∀ (screen : Nat → Bool) (vf base pixel : Nat) (scr : Nat → Bool) (vf2 : Nat),
      Chip8.drawBits screen vf base pixel xs = some (scr, vf2) →
      ∀ k, (∀ xl ∈ xs, base + xl ≠ k) → scr k = screen k := by
  induction xs with
  | nil =>
    intro screen vf base pixel scr vf2 h k _
    rw [Chip8.drawBits] at h
    simp at h
    rw [← h.1]
  | cons xl rest ih =>
    intro screen vf base pixel scr vf2 h k hk
    rw [Chip8.drawBits] at h
    by_cases hbit : pixel &&& (0x80 >>> xl) ≠ 0
    · rw [if_pos hbit] at h
      by_cases hlt : base + xl < 2048
      · rw [if_pos hlt] at h
        rw [ih _ _ _ _ _ _ h k (fun z hz => hk z (by simp [hz])),
          upd_other _ _ _ _ (Ne.symm (hk xl (by simp)))]
      · rw [if_neg hlt] at h
        simp at h
    · rw [if_neg hbit] at h
      exact ih _ _ _ _ _ _ h k fun z hz => hk z (by simp [hz])

theorem drawBits_flag (xs : List Nat) :
    ∀ (screen : Nat → Bool) (vf base pixel : Nat) (scr : Nat → Bool) (vf2 : Nat),
      xs.Nodup →
      Chip8.drawBits screen vf base pixel xs = some (scr, vf2) →
      (vf2 = 1 ↔ vf = 1 ∨ ∃ xl ∈ xs,
        pixel &&& (0x80 >>> xl) ≠ 0 ∧ screen (base + xl) = true) := by
  induction xs with
  | nil =>
    intro screen vf base pixel scr vf2 _ h
    rw [Chip8.drawBits] at h
    simp at h
    simp [← h.2]
  | cons xl rest ih =>
    intro screen vf base pixel scr vf2 hnd h
    rw [List.nodup_cons] at hnd
    rw [Chip8.drawBits] at h
    by_cases hbit : pixel &&& (0x80 >>> xl) ≠ 0
    · rw [if_pos hbit] at h
      by_cases hlt : base + xl < 2048
      · rw [if_pos hlt] at h
        have hsc : ∀ z ∈ rest,
            upd screen (base + xl) (Bool.xor (screen (base + xl)) true) (base + z) =
              screen (base + z) := by
          intro z hz
          refine upd_other _ _ _ _ fun he => hnd.1 ?_
          have : z = xl := by omega
          rwa [← this]
        have ih' := ih _ _ _ _ _ _ hnd.2 h
        have hex : (∃ z ∈ rest, pixel &&& (0x80 >>> z) ≠ 0 ∧
              upd screen (base + xl) (Bool.xor (screen (base + xl)) true) (base + z) = true) ↔
            (∃ z ∈ rest, pixel &&& (0x80 >>> z) ≠ 0 ∧ screen (base + z) = true) := by
          constructor <;> rintro ⟨z, hz, hb, hs⟩
          · exact ⟨z, hz, hb, by rwa [hsc z hz] at hs⟩
          · exact ⟨z, hz, hb, by rwa [hsc z hz]⟩
        rw [hex] at ih'
        by_cases hscr : screen (base + xl) = true
        · rw [if_pos hscr] at ih'
          constructor
          · intro _
            exact Or.inr ⟨xl, List.mem_cons_self xl rest, hbit, hscr⟩
          · intro _
            exact ih'.mpr (Or.inl rfl)
        · rw [if_neg hscr] at ih'
          rw [ih']
          constructor
          · rintro (hv | ⟨z, hz, hb, hs⟩)
            · exact Or.inl hv
            · exact Or.inr ⟨z, List.mem_cons_of_mem xl hz, hb, hs⟩
          · rintro (hv | ⟨z, hz, hb, hs⟩)
            · exact Or.inl hv
            · rcases List.mem_cons.mp hz with hzx | hzr
              · subst hzx
                exact absurd hs hscr
              · exact Or.inr ⟨z, hzr, hb, hs⟩
      · rw [if_neg hlt] at h
        simp at h
    · rw [if_neg hbit] at h
      have ih' := ih _ _ _ _ _ _ hnd.2 h
      rw [ih']
      constructor
      · rintro (hv | ⟨z, hz, hb, hs⟩)
        · exact Or.inl hv
        · exact Or.inr ⟨z, List.mem_cons_of_mem xl hz, hb, hs⟩
      · rintro (hv | ⟨z, hz, hb, hs⟩)
        · exact Or.inl hv
        · rcases List.mem_cons.mp hz with hzx | hzr
          · subst hzx
            exact absurd hb hbit
          · exact Or.inr ⟨z, hzr, hb, hs⟩

theorem drawRows_flag (ys : List Nat) :
    ∀ (memory : Nat → Nat) (screen : Nat → Bool) (vf x y I : Nat)
      (scr : Nat → Bool) (vf2 : Nat),
      ys.Nodup →
      Chip8.drawRows memory screen vf x y I ys = some (scr, vf2) →
      (vf2 = 1 ↔ vf = 1 ∨ ∃ yl ∈ ys, ∃ xl ∈ List.range 8,
        memory (I + yl) &&& (0x80 >>> xl) ≠ 0 ∧
          screen (x + (y + yl) * 64 + xl) = true) := by
  induction ys with
  | nil =>
    intro memory screen vf x y I scr vf2 _ h
    rw [Chip8.drawRows] at h
    simp at h
    simp [← h.2]
  | cons yl rest ih =>
    intro memory screen vf x y I scr vf2 hnd h
    rw [List.nodup_cons] at hnd
    rw [Chip8.drawRows] at h
    by_cases hI : I + yl < 4096
    · rw [if_pos hI] at h
      rcases hdb : Chip8.drawBits screen vf (x + (y + yl) * 64) (memory (I + yl))
          (List.range 8) with _ | ⟨scr1, vf1⟩
      · rw [hdb] at h
        simp at h
      · rw [hdb] at h
        simp only [] at h
        have hflag := drawBits_flag (List.range 8) screen vf (x + (y + yl) * 64)
          (memory (I + yl)) scr1 vf1 (List.nodup_range 8) hdb
        have hscr1 : ∀ z ∈ rest, ∀ xl ∈ List.range 8,
            scr1 (x + (y + z) * 64 + xl) = screen (x + (y + z) * 64 + xl) := by
          intro z hz xl hxl
          refine drawBits_frame _ _ _ _ _ _ _ hdb _ ?_
          intro w hw heq
          have hw8 : w < 8 := List.mem_range.mp hw
          have hxl8 : xl < 8 := List.mem_range.mp hxl
          have hzy : yl = z := by omega
          exact hnd.1 (hzy ▸ hz)
        have ih' := ih memory scr1 vf1 x y I scr vf2 hnd.2 h
        have hiw : vf2 = 1 ↔ vf1 = 1 ∨ ∃ z ∈ rest, ∃ xl ∈ List.range 8,
            memory (I + z) &&& (0x80 >>> xl) ≠ 0 ∧
              screen (x + (y + z) * 64 + xl) = true := by
          rw [ih']
          refine or_congr_right ?_
          constructor <;> rintro ⟨z, hz, xl, hxl, hb, hs⟩ <;>
            refine ⟨z, hz, xl, hxl, hb, ?_⟩
          · rwa [hscr1 z hz xl hxl] at hs
          · rwa [hscr1 z hz xl hxl]
        rw [hiw, hflag]
        constructor
        · rintro ((hv | ⟨xl, hxl, hb, hs⟩) | ⟨z, hz, hrest⟩)
          · exact Or.inl hv
          · exact Or.inr ⟨yl, List.mem_cons_self yl rest, xl, hxl, hb, hs⟩
          · exact Or.inr ⟨z, List.mem_cons_of_mem yl hz, hrest⟩
        · rintro (hv | ⟨z, hz, hrest⟩)
          · exact Or.inl (Or.inl hv)
          · rcases List.mem_cons.mp hz with hzy | hzr
            · subst hzy
              exact Or.inl (Or.inr hrest)
            · exact Or.inr ⟨z, hzr, hrest⟩
    · rw [if_neg hI] at h
      simp at h

theorem drawBits_total (xs : List Nat) :
    ∀ (screen : Nat → Bool) (vf base pixel : Nat),
      (∀ xl ∈ xs, pixel &&& (0x80 >>> xl) ≠ 0 → base + xl < 2048) →
      (Chip8.drawBits screen vf base pixel xs).isSome = true := by
  induction xs with
  | nil => intro screen vf base pixel _; rfl
  | cons xl rest ih =>
    intro screen vf base pixel hb
    rw [Chip8.drawBits]
    by_cases hbit : pixel &&& (0x80 >>> xl) ≠ 0
    · rw [if_pos hbit, if_pos (hb xl (by simp) hbit)]
      exact ih _ _ _ _ fun z hz => hb z (by simp [hz])
    · rw [if_neg hbit]
      exact ih _ _ _ _ fun z hz => hb z (by simp [hz])

theorem drawRows_total (ys : List Nat) :
    ∀ (memory : Nat → Nat) (screen : Nat → Bool) (vf x y I : Nat),
      (∀ yl ∈ ys, I + yl < 4096) →
      (∀ yl ∈ ys, ∀ xl ∈ List.range 8,
        memory (I + yl) &&& (0x80 >>> xl) ≠ 0 →
          x + (y + yl) * 64 + xl < 2048) →
      (Chip8.drawRows memory screen vf x y I ys).isSome = true := by
  induction ys with
  | nil => intro memory screen vf x y I _ _; rfl
  | cons yl rest ih =>
    intro memory screen vf x y I hrow hpix
    rw [Chip8.drawRows, if_pos (hrow yl (by simp))]
    have hbt := drawBits_total (List.range 8) screen vf (x + (y + yl) * 64)
      (memory (I + yl)) (fun xl hxl hbit => hpix yl (by simp) xl hxl hbit)
    rcases hdb : Chip8.drawBits screen vf (x + (y + yl) * 64) (memory (I + yl))
        (List.range 8) with _ | ⟨scr1, vf1⟩
    · rw [hdb] at hbt
      simp at hbt
    · exact ih memory scr1 vf1 x y I (fun z hz => hrow z (by simp [hz]))
        (fun z hz => hpix z (by simp [hz]))

/-- C7: whenever a draw completes (returns a state rather than panicking),
the final `V[0xF]` is 1 exactly when some set sprite bit fell on an already
lit framebuffer pixel — the flag starts the scan at 0 and never drops back
from 1, so the post-state flag equals the collision predicate over the
pre-draw screen. -/
theorem C7_draw_collision_flag (s : Chip8) (rx ry h : Nat) (s2 : Chip8)
    (hdr : Chip8.draw s rx ry h = some s2) :
    (s2.V 0xF = 1 ↔
      drawCollision s.memory s.screen (s.V rx) (s.V ry) s.I h = true) := by
  rw [Chip8.draw] at hdr
  rcases hrows : Chip8.drawRows s.memory s.screen 0 (s.V rx) (s.V ry) s.I
      (List.range h) with _ | ⟨scr, vf⟩
  · rw [hrows] at hdr
    simp at hdr
  · rw [hrows] at hdr
    injection hdr with h2
    subst h2
    have hfl := drawRows_flag (List.range h) s.memory s.screen 0 (s.V rx)
      (s.V ry) s.I scr vf (List.nodup_range h) hrows
    show upd s.V 0xF vf 0xF = 1 ↔ _
    rw [upd_same, hfl, drawCollision]
    simp [List.any_eq_true, Bool.and_eq_true, bne_iff_ne]

/-- C7, witness: the theorem applied to the completing draw from `sC7`. -/
theorem C7_draw_collision_flag_witness :
    sC7r.V 0xF = 1 ↔
      drawCollision sC7.memory sC7.screen (sC7.V 0) (sC7.V 0) sC7.I 1 = true :=
  C7_draw_collision_flag sC7 0 0 1 sC7r rfl

/-- C8, counterexample: the draw from `sC8` panics (index out of bounds on
the 2048-cell framebuffer) — `draw` neither bounds-checks nor wraps, so Draw
can fault. -/
theorem C8_draw_oob_cex : Chip8.draw sC8 0 1 1 = none := rfl

/-- C8, amended: `draw` applies no wraparound and no bounds check; it faults
(out-of-bounds panic) whenever a set sprite bit maps outside the 2048-cell
framebuffer or a sprite row is read past memory, and it completes whenever
every sprite row lies in memory and every set sprite bit maps inside the
framebuffer. -/
theorem C8_draw_inbounds_amended (s : Chip8) (rx ry h : Nat)
    (hrow : ∀ yl, yl < h → s.I + yl < 4096)
    (hpix : ∀ yl, yl < h → ∀ xl, xl < 8 →
      s.memory (s.I + yl) &&& (0x80 >>> xl) ≠ 0 →
      s.V rx + (s.V ry + yl) * 64 + xl < 2048) :
    (Chip8.draw s rx ry h).isSome = true := by
  rw [Chip8.draw]
  have ht := drawRows_total (List.range h) s.memory s.screen 0 (s.V rx)
    (s.V ry) s.I (fun yl hyl => hrow yl (List.mem_range.mp hyl))
    (fun yl hyl xl hxl hbit =>
      hpix yl (List.mem_range.mp hyl) xl (List.mem_range.mp hxl) hbit)
  rcases hrows : Chip8.drawRows s.memory s.screen 0 (s.V rx) (s.V ry) s.I
      (List.range h) with _ | ⟨scr, vf⟩
  · rw [hrows] at ht
    simp at ht
  · rfl

/-- C8, witness: the amended theorem applied to the in-bounds draw from
`sC8w`. -/
theorem C8_draw_inbounds_amended_witness :
    (Chip8.draw sC8w 0 1 1).isSome = true :=
  C8_draw_inbounds_amended sC8w 0 1 1 (by decide) (by decide)

/-! ### C2: unknown opcodes (`emulate_cycle` dispatch fallback) -/

/-- C2, counterexample: on the unmatched word `0x8008` the cycle produces no
outcome at all — the source hits the `panic` arm — rather than returning a
recoverable `Fault(UnknownOpcode)` value as the claim demands. -/
theorem C2_unknown_opcode_cex : Chip8.emulate_cycle sC2 0 = none := rfl

/-- C2, amended: the dispatch match is total — every 16-bit word either
selects a recognized instruction or falls into the final panic arm — but on an
unmatched word the executor panics (the cycle yields no outcome and performs
no state mutation); it does not surface a recoverable unknown-opcode fault
value. -/
theorem C2_unknown_opcode_amended (s : Chip8) (rnd : Nat)
    (hpc : s.pc + 1 < 4096)
    (hdec : Chip8.decodeOp (Chip8.fetch_word s) = none) :
    Chip8.emulate_cycle s rnd = none := by
  rw [Chip8.emulate_cycle, if_pos hpc, hdec]

/-- C2, witness: the amended theorem applied to `sC2w`. -/
theorem C2_unknown_opcode_amended_witness :
    Chip8.emulate_cycle sC2w 0 = none :=
  C2_unknown_opcode_amended sC2w 0 (by decide) rfl

/-! ### C9: timers and the beep signal -/

/-- The timer block decrements each non-zero timer by exactly 1 (clamping at
0, which in `Nat` is truncated subtraction), and the beep fires exactly when
the sound timer was 1 before the block. -/
theorem update_timers_spec (t : Chip8) :
    (Chip8.update_timers t).1.delay_timer = t.delay_timer - 1 ∧
      (Chip8.update_timers t).1.sound_timer = t.sound_timer - 1 ∧
      ((Chip8.update_timers t).2 = true ↔ t.sound_timer = 1) := by
  unfold Chip8.update_timers
  by_cases hdt : 0 < t.delay_timer <;> by_cases hst : 0 < t.sound_timer <;>
    simp [hdt, hst, beq_iff_eq] <;> omega

/-- Every handler other than `set_delay` (FX15) and `set_sound` (FX18) leaves
both timers untouched. -/
theorem execInstr_timers (s : Chip8) (rnd : Nat) (op : Op) (s1 : Chip8)
    (hd : ∀ x, op ≠ Op.SetDelayTimer x) (hs : ∀ x, op ≠ Op.SetSoundTimer x)
    (h : Chip8.execInstr s rnd op = some s1) :
    s1.delay_timer = s.delay_timer ∧ s1.sound_timer = s.sound_timer := by
  cases op <;> simp only [Chip8.execInstr] at h
  case ClearScreen => exact absurd h (by simp)
  case MachineCode a => exact absurd h (by simp)
  case SkipRegEQ x y => exact absurd h (by simp)
  case XorReg x y => exact absurd h (by simp)
  case Div2 x y => exact absurd h (by simp)
  case DiffReg x y => exact absurd h (by simp)
  case Mul2 x y => exact absurd h (by simp)
  case JumpOffset a => exact absurd h (by simp)
  case KeyEQ x => exact absurd h (by simp)
  case GetKey x => exact absurd h (by simp)
  case AddToI x => exact absurd h (by simp)
  case RegDump x => exact absurd h (by simp)
  case SetDelayTimer x => exact absurd rfl (hd x)
  case SetSoundTimer x => exact absurd rfl (hs x)
  case Goto a =>
    injection h with h2
    subst h2
    exact ⟨rfl, rfl⟩
  case SetConst x c =>
    injection h with h2
    subst h2
    exact ⟨rfl, rfl⟩
  case AddConst x c =>
    injection h with h2
    subst h2
    exact ⟨rfl, rfl⟩
  case SetReg x y =>
    injection h with h2
    subst h2
    exact ⟨rfl, rfl⟩
  case OrReg x y =>
    injection h with h2
    subst h2
    exact ⟨rfl, rfl⟩
  case AndReg x y =>
    injection h with h2
    subst h2
    exact ⟨rfl, rfl⟩
  case AddReg x y =>
    injection h with h2
    subst h2
    exact ⟨rfl, rfl⟩
  case SubReg x y =>
    injection h with h2
    subst h2
    exact ⟨rfl, rfl⟩
  case SetAR a =>
    injection h with h2
    subst h2
    exact ⟨rfl, rfl⟩
  case Rand x c =>
    injection h with h2
    subst h2
    exact ⟨rfl, rfl⟩
  case GetDelayTimer x =>
    injection h with h2
    subst h2
    exact ⟨rfl, rfl⟩
  case SetISprite x =>
    injection h with h2
    subst h2
    exact ⟨rfl, rfl⟩
  case SkipEQ x c =>
    injection h with h2
    subst h2
    constructor <;> (unfold Chip8.skip_const_eq; split <;> rfl)
  case SkipNEQ x c =>
    injection h with h2
    subst h2
    constructor <;> (unfold Chip8.skip_const_neq; split <;> rfl)
  case SkipRegNEQ x y =>
    injection h with h2
    subst h2
    constructor <;> (unfold Chip8.skip_reg_neq; split <;> rfl)
  case ReturnFromSub =>
    unfold Chip8.return_subroutine at h
    split_ifs at h <;>
      first
      | (injection h with h2; subst h2; exact ⟨rfl, rfl⟩)
      | simp at h
  case CallSub a =>
    unfold Chip8.call_subroutine at h
    split_ifs at h <;>
      first
      | (injection h with h2; subst h2; exact ⟨rfl, rfl⟩)
      | simp at h
  case KeyNEQ x =>
    unfold Chip8.skip_if_nkey at h
    split_ifs at h <;>
      first
      | (injection h with h2; subst h2; exact ⟨rfl, rfl⟩)
      | simp at h
  case BCD x =>
    unfold Chip8.bcd at h
    split_ifs at h <;>
      first
      | (injection h with h2; subst h2; exact ⟨rfl, rfl⟩)
      | simp at h
  case RegLoad x =>
    unfold Chip8.reg_load at h
    split_ifs at h <;>
      first
      | (injection h with h2; subst h2; exact ⟨rfl, rfl⟩)
      | simp at h
  case Draw x y c =>
    rw [Chip8.draw] at h
    rcases hrows : Chip8.drawRows s.memory s.screen 0 (s.V x) (s.V y) s.I
        (List.range c) with _ | ⟨scr, vf⟩
    · rw [hrows] at h
      simp at h
    · rw [hrows] at h
      injection h with h2
      subst h2
      exact ⟨rfl, rfl⟩

/-- C9, amended: for every completed cycle whose instruction is neither FX15
(`set_delay`) nor FX18 (`set_sound`), the cycle decrements each timer by
exactly 1 when non-zero and leaves a zero timer at 0 (the `Nat` truncated
`- 1` states both at once), and the beep outcome is produced exactly when the
pre-cycle sound timer was 1; in particular a completed cycle starting from
`soundTimer = 0` with such an instruction never beeps. -/
theorem C9_timer_decrement_amended (s : Chip8) (rnd : Nat) (s2 : Chip8)
    (b : Bool) (h : Chip8.emulate_cycle s rnd = some (s2, b))
    (hd : ∀ x, Chip8.decodeOp (Chip8.fetch_word s) ≠ some (Op.SetDelayTimer x))
    (hs : ∀ x, Chip8.decodeOp (Chip8.fetch_word s) ≠ some (Op.SetSoundTimer x)) :
    s2.delay_timer = s.delay_timer - 1 ∧ s2.sound_timer = s.sound_timer - 1 ∧
      (b = true ↔ s.sound_timer = 1) := by
  rw [Chip8.emulate_cycle] at h
  split_ifs at h with hpc
  rcases hdec : Chip8.decodeOp (Chip8.fetch_word s) with _ | op
  · rw [hdec] at h
    simp at h
  · rw [hdec] at h
    have h' : (Chip8.execInstr s rnd op).map Chip8.update_timers =
        some (s2, b) := h
    rcases hex : Chip8.execInstr s rnd op with _ | s1
    · rw [hex] at h'
      exact Option.noConfusion h'
    · rw [hex] at h'
      have h'' : some (Chip8.update_timers s1) = some (s2, b) := h'
      injection h'' with h2
      have hpres := execInstr_timers s rnd op s1
        (fun x hx => hd x (by rw [hdec, hx])) (fun x hx => hs x (by rw [hdec, hx]))
        hex
      have h3 : s2 = (Chip8.update_timers s1).1 := by rw [h2]
      have h4 : b = (Chip8.update_timers s1).2 := by rw [h2]
      obtain ⟨hu1, hu2, hu3⟩ := update_timers_spec s1
      refine ⟨?_, ?_, ?_⟩
      · rw [h3, hu1, hpres.1]
      · rw [h3, hu2, hpres.2]
      · rw [h4, hu3, hpres.2]

/-- C9, counterexample: a step from `soundTimer = 0` CAN beep — the `set_sound`
instruction first loads the sound timer with `V[0] = 1` and the timer block
then decrements it to 0 and fires the beep, contradicting "a subsequent step
from soundTimer=0 produces no further Beeped" as a statement over every
state. -/
theorem C9_beep_from_zero_cex :
    sC9.sound_timer = 0 ∧
      (Chip8.emulate_cycle sC9 0).map (fun r => (r.1.sound_timer, r.2)) =
        some (0, true) :=
  ⟨rfl, rfl⟩

/-- C9, witness: the amended theorem applied to the completing cycle from
`sC9w` (`delay 3 → 2`, `sound 1 → 0`, beep fired). -/
theorem C9_timer_decrement_amended_witness :
    sC9r.1.delay_timer = sC9w.delay_timer - 1 ∧
      sC9r.1.sound_timer = sC9w.sound_timer - 1 ∧
      (sC9r.2 = true ↔ sC9w.sound_timer = 1) :=
  C9_timer_decrement_amended sC9w 0 sC9r.1 sC9r.2 rfl
    (fun x hx => by
      rw [show Chip8.decodeOp (Chip8.fetch_word sC9w) =
        some (Op.SetConst 0 5) from rfl] at hx
      simp at hx)
    (fun x hx => by
      rw [show Chip8.decodeOp (Chip8.fetch_word sC9w) =
        some (Op.SetConst 0 5) from rfl] at hx
      simp at hx)
